import Mathlib

/-!
Verification of the aging-gan training core (src/aging_gan/train.py and
src/aging_gan/data.py) against its specification.  The Python source is
shallowly embedded: pure numeric computations become functions over `ℚ` or
`Int`, Python exceptions become `Except`, and the stateful optimization step
becomes explicit state passing over a record of parameter/gradient/step-count
fields.  Opaque external collaborators (network forward passes, autodiff
gradients, Adam updates, gradient clipping, the FID accumulator's internal
statistics) are abstracted as function parameters; everything the claims
depend on — sequencing, accumulation arithmetic, thresholds, control flow —
is translated line by line from the source.
-/

namespace AgingGan

/-! ## data.py -/

/-- Python-exception kinds raised by the data-preparation code. -/
inductive DataError
  | fileNotFound        -- `FileNotFoundError` in `UTKFace.__init__`
  | valueErrorEmptySplit -- `ValueError` in `make_unpaired_loader`
deriving DecidableEq, Repr

/-- `UTKFace.__init__` (data.py lines 21-31): globs the jpg files and raises
`FileNotFoundError` when none are found.  A file is represented by the age
parsed from its name (`int(path.name.split("_")[0])`); all downstream logic
depends only on that age. -/
def utkface_init (ages : List Int) : Except DataError (List Int) :=
  if ages.isEmpty then .error .fileNotFound else .ok ages

/-- Young-bucket indices (data.py lines 65-68): `enumerate(full_ds.files)`
keeping `i` when `age <= young_max and age >= 18`. -/
def young_idx (ages : List Int) (young_max : Int) : List Nat :=
  ((ages.enum.filter fun p => decide (p.2 ≤ young_max ∧ 18 ≤ p.2)).map Prod.fst)

/-- Old-bucket indices (data.py lines 65-70): the `elif age >= old_min`
branch, reached only when the young condition failed. -/
def old_idx (ages : List Int) (young_max old_min : Int) : List Nat :=
  ((ages.enum.filter fun p =>
      decide (¬(p.2 ≤ young_max ∧ 18 ≤ p.2) ∧ old_min ≤ p.2)).map Prod.fst)

/-- `make_unpaired_loader` up to its error checks (data.py lines 58-75):
construct the dataset (may raise `FileNotFoundError`), build the young/old
index buckets, and raise `ValueError` when either bucket is empty.  Returns
the two buckets. -/
def make_unpaired_loader_buckets (ages : List Int) (young_max old_min : Int) :
    Except DataError (List Nat × List Nat) := do
  let fs ← utkface_init ages
  let y := young_idx fs young_max
  let o := old_idx fs young_max old_min
  if y.isEmpty || o.isEmpty then .error .valueErrorEmptySplit
  else .ok (y, o)

/-- `split_indices` slicing (data.py lines 78-86): after the deterministic
shuffle, `idxs[:train]`, `idxs[train:valid]`, `idxs[valid:]`.  The shuffle is
abstracted as the already-permuted list `shuffled`; the two cut points
(`int(0.8 * n)` and `int(0.9 * n)`, computed in floating point in the source)
are abstracted as `Nat` parameters — the claims below depend only on every
slice being a sublist of `shuffled`. -/
def split_indices_parts (shuffled : List Nat) (trainCut validCut : Nat) :
    List Nat × List Nat × List Nat :=
  (shuffled.take trainCut,
   (shuffled.drop trainCut).take (validCut - trainCut),
   shuffled.drop validCut)

/-! ## evaluate_epoch (train.py lines 298-398), numeric model -/

/-- The seven per-batch scalar losses computed inside the evaluation loop
(train.py lines 330-372).  Their numeric values come from opaque network
forward passes, so one record of rationals stands for one batch. -/
structure LossRec where
  lossDX : ℚ
  lossDY : ℚ
  lossFAdv : ℚ
  lossGAdv : ℚ
  lossCyc : ℚ
  lossId : ℚ
  lossGenTotal : ℚ
deriving DecidableEq, Repr

/-- The metrics dictionary of `evaluate_epoch` (train.py lines 314-323):
seven loss keys plus `fid_val`, all initialized to `0.0`. -/
structure MetricsRec where
  lossDX : ℚ
  lossDY : ℚ
  lossFAdv : ℚ
  lossGAdv : ℚ
  lossCyc : ℚ
  lossId : ℚ
  lossGenTotal : ℚ
  fidVal : ℚ
deriving DecidableEq, Repr

/-- Python runtime error raised by `/=` with an integer zero divisor. -/
inductive PyError
  | zeroDivisionError
deriving DecidableEq, Repr

/-- Python division of a float by an int: raises `ZeroDivisionError` when the
divisor is zero, otherwise true division. -/
def pyDiv (a : ℚ) (n : Nat) : Except PyError ℚ :=
  if n = 0 then .error .zeroDivisionError else .ok (a / n)

/-- The accumulation loop body (train.py lines 379-386): each of the seven
loss keys is increased by the batch's loss; `fid_val` is not accumulated. -/
def accumStep (m : MetricsRec) (b : LossRec) : MetricsRec :=
  { m with
    lossDX := m.lossDX + b.lossDX
    lossDY := m.lossDY + b.lossDY
    lossFAdv := m.lossFAdv + b.lossFAdv
    lossGAdv := m.lossGAdv + b.lossGAdv
    lossCyc := m.lossCyc + b.lossCyc
    lossId := m.lossId + b.lossId
    lossGenTotal := m.lossGenTotal + b.lossGenTotal }

/-- The zero-initialized metrics dictionary (train.py lines 314-323). -/
def zeroMetrics : MetricsRec := ⟨0, 0, 0, 0, 0, 0, 0, 0⟩

/-- `evaluate_epoch` (train.py lines 298-398) at the level of its metric
arithmetic: per-batch loss values and the accumulator's single finalized
`compute` result are opaque inputs; the function performs the source's
accumulation, the `fid_val` assignment (line 392), and the final
`for k in metrics: metrics[k] /= n_batches` loop (lines 395-396), in which
the division over every key — `fid_val` included — raises
`ZeroDivisionError` when `n_batches == 0`. -/
def evaluate_epoch (batches : List LossRec) (fidComputed : ℚ) :
    Except PyError MetricsRec := do
  let n := batches.length
  let acc := batches.foldl accumStep zeroMetrics
  let withFid : MetricsRec := { acc with fidVal := fidComputed }
  let a ← pyDiv withFid.lossDX n
  let b ← pyDiv withFid.lossDY n
  let c ← pyDiv withFid.lossFAdv n
  let d ← pyDiv withFid.lossGAdv n
  let e ← pyDiv withFid.lossCyc n
  let f ← pyDiv withFid.lossId n
  let g ← pyDiv withFid.lossGenTotal n
  let h ← pyDiv withFid.fidVal n
  pure ⟨a, b, c, d, e, f, g, h⟩

/-! ## evaluate_epoch, FID-accumulator call protocol (train.py lines 326-392) -/

/-- Calls made on the stateful FID accumulator during one evaluation pass. -/
inductive FidEvent
  | reset       -- `fid_metric.reset()` (line 327)
  | updateReal  -- `fid_metric.update((y * 0.5 + 0.5).float(), real=True)` (line 376)
  | updateFake  -- `fid_metric.update((fake_y * 0.5 + 0.5).float(), real=False)` (line 377)
  | compute     -- `fid_val = fid_metric.compute()` (line 391)
deriving DecidableEq, Repr

/-- The two `update` calls issued for each batch of the evaluation loop. -/
def batchFidUpdates (nBatches : Nat) : List FidEvent :=
  (List.replicate nBatches [FidEvent.updateReal, FidEvent.updateFake]).flatten

/-- The sequence of calls `evaluate_epoch` issues to the FID accumulator on a
split of `nBatches` batches: `reset` before the loop, two `update`s per batch,
then a single `compute` after the loop (train.py lines 326-392). -/
def evalFidTrace (nBatches : Nat) : List FidEvent :=
  FidEvent.reset :: (batchFidUpdates nBatches ++ [FidEvent.compute])

/-! ## perform_train_step (train.py lines 206-295)

State-passing embedding of the optimization step.  Each model's parameter
vector is abstracted as a single `Int`; gradient buffers are `Option Int`
(`none` after `zero_grad(set_to_none=True)`); a step counter per optimizer
records how many times `opt.step()` has been applied to that model.  Network
outputs, autodiff gradients, gradient clipping and the Adam update are opaque
functions collected in an `Oracle`; the embedding fixes only their sequencing
and the parameter values they are applied to, read off line by line from the
source. -/

structure TrainState where
  pG : Int
  pF : Int
  pDX : Int
  pDY : Int
  gG : Option Int
  gF : Option Int
  gDX : Option Int
  gDY : Option Int
  stepsG : Nat
  stepsF : Nat
  stepsDX : Nat
  stepsDY : Nat
deriving DecidableEq, Repr

/-- Opaque numeric collaborators of the step: forward passes, the generator
total loss and its gradients (a function of all four parameter vectors and the
batch, since nothing is detached in the generator phase), the two
discriminator losses on a real input and a detached fake (functions of that
discriminator's parameters only, because `.detach()` cuts the graph), norm
clipping, and the four Adam updates. -/
structure Oracle where
  fwdG : Int → Int → Int
  fwdF : Int → Int → Int
  genLossTotal : Int → Int → Int → Int → Int → Int → Int
  gradGenG : Int → Int → Int → Int → Int → Int → Int
  gradGenF : Int → Int → Int → Int → Int → Int → Int
  gradGenDX : Int → Int → Int → Int → Int → Int → Int
  gradGenDY : Int → Int → Int → Int → Int → Int → Int
  dxLoss : Int → Int → Int → Int
  dxGrad : Int → Int → Int → Int
  dyLoss : Int → Int → Int → Int
  dyGrad : Int → Int → Int → Int
  clipGen : Int × Int → Int × Int
  clipD : Int → Int
  adamG : Int → Int → Int
  adamF : Int → Int → Int
  adamDX : Int → Int → Int
  adamDY : Int → Int → Int

/-- Values produced by the generator phase and reused or returned later:
the two fakes (reused, detached, by the discriminator phase) and the
generator total loss together with the discriminator parameter values it was
evaluated at. -/
structure GenPhaseRecord where
  fakeX : Int
  fakeY : Int
  usedPDX : Int
  usedPDY : Int
  lossGenTotal : Int
deriving DecidableEq, Repr

/-- Generator phase of `perform_train_step` (train.py lines 225-254):
zero G/F grads, forward passes, generator total loss at the current
parameters, `accelerator.backward` accumulating into every parameter in the
graph (G, F, DX and DY — the discriminators are not detached here), joint
(G, F) norm clip, then `opt_G.step()` and `opt_F.step()`. -/
def gen_phase (o : Oracle) (x y : Int) (s : TrainState) :
    TrainState × GenPhaseRecord :=
  let s1 : TrainState := { s with gG := none, gF := none }
  let fakeX := o.fwdF s1.pF y
  let fakeY := o.fwdG s1.pG x
  let gr : GenPhaseRecord :=
    { fakeX := fakeX
      fakeY := fakeY
      usedPDX := s1.pDX
      usedPDY := s1.pDY
      lossGenTotal := o.genLossTotal s1.pG s1.pF s1.pDX s1.pDY x y }
  let s2 : TrainState :=
    { s1 with
      gG := some (s1.gG.getD 0 + o.gradGenG s1.pG s1.pF s1.pDX s1.pDY x y)
      gF := some (s1.gF.getD 0 + o.gradGenF s1.pG s1.pF s1.pDX s1.pDY x y)
      gDX := some (s1.gDX.getD 0 + o.gradGenDX s1.pG s1.pF s1.pDX s1.pDY x y)
      gDY := some (s1.gDY.getD 0 + o.gradGenDY s1.pG s1.pF s1.pDX s1.pDY x y) }
  let clipped := o.clipGen (s2.gG.getD 0, s2.gF.getD 0)
  let s3 : TrainState := { s2 with gG := some clipped.1, gF := some clipped.2 }
  let s4 : TrainState :=
    { s3 with pG := o.adamG s3.pG (s3.gG.getD 0), stepsG := s3.stepsG + 1 }
  let s5 : TrainState :=
    { s4 with pF := o.adamF s4.pF (s4.gF.getD 0), stepsF := s4.stepsF + 1 }
  (s5, gr)

/-- Discriminator phase of `perform_train_step` (train.py lines 256-285):
for DX — zero its grads, loss on real `x` and the detached `fake_x`,
backward (reaching only DX because of the detach), clip, step; then the same
for DY with `y` and the detached `fake_y`.  Returns the two discriminator
losses. -/
def disc_phase (o : Oracle) (x y fakeX fakeY : Int) (s : TrainState) :
    TrainState × Int × Int :=
  let s1 : TrainState := { s with gDX := none }
  let lossDX := o.dxLoss s1.pDX x fakeX
  let s2 : TrainState := { s1 with gDX := some (s1.gDX.getD 0 + o.dxGrad s1.pDX x fakeX) }
  let s3 : TrainState := { s2 with gDX := some (o.clipD (s2.gDX.getD 0)) }
  let s4 : TrainState :=
    { s3 with pDX := o.adamDX s3.pDX (s3.gDX.getD 0), stepsDX := s3.stepsDX + 1 }
  let s5 : TrainState := { s4 with gDY := none }
  let lossDY := o.dyLoss s5.pDY y fakeY
  let s6 : TrainState := { s5 with gDY := some (s5.gDY.getD 0 + o.dyGrad s5.pDY y fakeY) }
  let s7 : TrainState := { s6 with gDY := some (o.clipD (s6.gDY.getD 0)) }
  let s8 : TrainState :=
    { s7 with pDY := o.adamDY s7.pDY (s7.gDY.getD 0), stepsDY := s7.stepsDY + 1 }
  (s8, lossDX, lossDY)

/-- `perform_train_step` (train.py lines 206-295): the generator phase runs
first on the entry state, then the discriminator phase runs on its result,
reusing the (detached) fakes produced by the generator phase. -/
def perform_train_step (o : Oracle) (x y : Int) (s : TrainState) :
    TrainState × GenPhaseRecord × Int × Int :=
  let p := gen_phase o x y s
  let q := disc_phase o x y p.2.fakeX p.2.fakeY p.1
  (q.1, p.2, q.2.1, q.2.2)

/-! ## make_schedulers (train.py lines 184-203) -/

/-- `_lr_lambda` (train.py lines 192-196): constant `1.0` before
`start_decay = n_epochs // 2`, then `max(0.0, (n_epochs - epoch) /
(n_epochs - start_decay))`.  Python's true division of ints is modelled
over `ℚ`. -/
def lr_lambda (n_epochs epoch : Nat) : ℚ :=
  let start_decay := n_epochs / 2
  if epoch < start_decay then 1
  else max 0 (((n_epochs : ℚ) - (epoch : ℚ)) /
      ((n_epochs : ℚ) - (start_decay : ℚ)))

/-- `make_schedulers` (train.py lines 184-203): four `LambdaLR` schedulers,
all built from the same `_lr_lambda` closure; each is the multiplier function
it applies to its optimizer's base learning rate. -/
def make_schedulers (n_epochs : Nat) :
    (Nat → ℚ) × (Nat → ℚ) × (Nat → ℚ) × (Nat → ℚ) :=
  (lr_lambda n_epochs, lr_lambda n_epochs, lr_lambda n_epochs, lr_lambda n_epochs)

/-! ## main's epoch loop: best/current checkpoint policy (train.py lines 602-673) -/

/-- Per-run checkpoint bookkeeping: `best_fid` (`none` models the initial
`float("inf")`), the epochs at which a `best` checkpoint was written (in
order), likewise for `current`, and the epoch stored in the `best` file
(the last one written, since writes are total overwrites). -/
structure RunState where
  bestFid : Option ℚ
  bestSaves : List Nat
  currentSaves : List Nat
  bestCkptEpoch : Option Nat
deriving DecidableEq, Repr

/-- `val_metrics["val/fid_val"] < best_fid` with `best_fid` initially
`float("inf")` (train.py lines 603, 632). -/
def ltBest (v : ℚ) : Option ℚ → Bool
  | none => true
  | some b => decide (v < b)

/-- One iteration of the epoch loop's checkpointing tail (train.py lines
631-673): if the validation FID strictly improves on `best_fid`, update
`best_fid` and overwrite the `best` checkpoint; independently, if
`epoch % 5 == 0`, overwrite the `current` checkpoint. -/
def epochBody (epoch : Nat) (fid : ℚ) (s : RunState) : RunState :=
  let s1 : RunState :=
    if ltBest fid s.bestFid then
      { s with
        bestFid := some fid
        bestSaves := s.bestSaves ++ [epoch]
        bestCkptEpoch := some epoch }
    else s
  if epoch % 5 = 0 then { s1 with currentSaves := s1.currentSaves ++ [epoch] } else s1

/-- The epoch loop (train.py line 604): epochs run `1, 2, ...`, consuming
one validation FID per epoch. -/
def runAux : RunState → Nat → List ℚ → RunState
  | s, _, [] => s
  | s, epoch, f :: rest => runAux (epochBody epoch f s) (epoch + 1) rest

/-- Initial run state (train.py line 603). -/
def initRun : RunState := ⟨none, [], [], none⟩

/-- The whole `for epoch in range(1, cfg.num_train_epochs + 1)` loop, driven
by the sequence of validation FID values it observes. -/
def runLoop (fids : List ℚ) : RunState := runAux initRun 1 fids

/-! ## main's startup sequencing (train.py lines 510-553) -/

/-- Coarse events of `main` relevant to the data-vs-model ordering claim. -/
inductive RunEvent
  | dataPreparation    -- `prepare_dataset(...)` (train.py line 544)
  | modelConstruction  -- `initialize_models()` (train.py line 553)
  | trainingLoop       -- the epoch loop (train.py line 604)
deriving DecidableEq, Repr

/-- `prepare_dataset` (data.py lines 127-188): builds the train, valid and
test loaders in order; each `make_unpaired_loader` call re-runs the dataset
construction and bucket checks, and the first raised exception propagates. -/
def prepare_dataset (ages : List Int) : Except DataError Unit := do
  let _ ← make_unpaired_loader_buckets ages 28 40
  let _ ← make_unpaired_loader_buckets ages 28 40
  let _ ← make_unpaired_loader_buckets ages 28 40
  pure ()

/-- The startup portion of `main` (train.py lines 543-604): data preparation
runs first and is attempted exactly once; only on its success does `main`
construct the models and enter the training loop — an exception from
`prepare_dataset` propagates out of `main` unhandled (there is no retry). -/
def main_startup (ages : List Int) : List RunEvent × Option DataError :=
  match prepare_dataset ages with
  | .error e => ([RunEvent.dataPreparation], some e)
  | .ok _ =>
      ([RunEvent.dataPreparation, RunEvent.modelConstruction, RunEvent.trainingLoop],
       none)

/-! ## Theorems -/

/-- Componentwise value of the metric accumulation fold. -/
lemma foldl_accumStep_eq (bs : List LossRec) : ∀ m : MetricsRec,
    (bs.foldl accumStep m).lossDX = m.lossDX + (bs.map LossRec.lossDX).sum ∧
    (bs.foldl accumStep m).lossDY = m.lossDY + (bs.map LossRec.lossDY).sum ∧
    (bs.foldl accumStep m).lossFAdv = m.lossFAdv + (bs.map LossRec.lossFAdv).sum ∧
    (bs.foldl accumStep m).lossGAdv = m.lossGAdv + (bs.map LossRec.lossGAdv).sum ∧
    (bs.foldl accumStep m).lossCyc = m.lossCyc + (bs.map LossRec.lossCyc).sum ∧
    (bs.foldl accumStep m).lossId = m.lossId + (bs.map LossRec.lossId).sum ∧
    (bs.foldl accumStep m).lossGenTotal = m.lossGenTotal + (bs.map LossRec.lossGenTotal).sum ∧
    (bs.foldl accumStep m).fidVal = m.fidVal := by
  induction bs with
  | nil => intro m; simp
  | cons b rest ih =>
    intro m
    obtain ⟨h1, h2, h3, h4, h5, h6, h7, h8⟩ := ih (accumStep m b)
    refine ⟨?_, ?_, ?_, ?_, ?_, ?_, ?_, ?_⟩
    · rw [List.foldl_cons, h1]; simp [accumStep, add_assoc]
    · rw [List.foldl_cons, h2]; simp [accumStep, add_assoc]
    · rw [List.foldl_cons, h3]; simp [accumStep, add_assoc]
    · rw [List.foldl_cons, h4]; simp [accumStep, add_assoc]
    · rw [List.foldl_cons, h5]; simp [accumStep, add_assoc]
    · rw [List.foldl_cons, h6]; simp [accumStep, add_assoc]
    · rw [List.foldl_cons, h7]; simp [accumStep, add_assoc]
    · rw [List.foldl_cons, h8]; simp [accumStep]

/-- Reduction of `Except` binds on a success value. -/
lemma ok_bind {ε α β : Type} (a : α) (f : α → Except ε β) :
    ((Except.ok a : Except ε α) >>= f) = f a := rfl

/-- Full characterization of `evaluate_epoch` on a non-empty split: every
key of the returned record — the seven losses and `fid_val` alike — is
divided by the batch count. -/
lemma evaluate_epoch_ok_eq (bs : List LossRec) (fidComputed : ℚ)
    (hn : bs.length ≠ 0) :
    evaluate_epoch bs fidComputed = .ok
      { lossDX := (bs.map LossRec.lossDX).sum / bs.length
        lossDY := (bs.map LossRec.lossDY).sum / bs.length
        lossFAdv := (bs.map LossRec.lossFAdv).sum / bs.length
        lossGAdv := (bs.map LossRec.lossGAdv).sum / bs.length
        lossCyc := (bs.map LossRec.lossCyc).sum / bs.length
        lossId := (bs.map LossRec.lossId).sum / bs.length
        lossGenTotal := (bs.map LossRec.lossGenTotal).sum / bs.length
        fidVal := fidComputed / bs.length } := by
  obtain ⟨h1, h2, h3, h4, h5, h6, h7, h8⟩ := foldl_accumStep_eq bs zeroMetrics
  simp only [zeroMetrics, zero_add] at h1 h2 h3 h4 h5 h6 h7 h8
  simp [evaluate_epoch, pyDiv, hn, ok_bind, zeroMetrics, h1, h2, h3, h4, h5, h6, h7, h8]

/-- Claim C2 (code_bug evidence): evaluating an empty split is not guarded by
any non-zero batch-count validation; the run reaches the per-batch averaging
loop with `n_batches == 0` and the very first `metrics[k] /= n_batches` is a
division by zero, surfacing as `ZeroDivisionError`. -/
theorem evaluate_epoch_empty_split_zero_division (fidComputed : ℚ) :
    evaluate_epoch [] fidComputed = .error PyError.zeroDivisionError := rfl

/-- Claim C1 (counterexample): on a two-batch split where the FID
accumulator's finalized compute result is `4`, the returned `fid_val` is `2`
— the compute result is divided by the batch count after all, because the
source's averaging loop runs over every key of the metrics dictionary. -/
theorem evaluate_epoch_fid_divided_cex :
    evaluate_epoch [⟨0, 0, 0, 0, 0, 0, 0⟩, ⟨0, 0, 0, 0, 0, 0, 0⟩] 4 =
      .ok ⟨0, 0, 0, 0, 0, 0, 0, 2⟩ ∧ (2 : ℚ) ≠ 4 := by
  constructor
  · rw [evaluate_epoch_ok_eq _ _ (by simp)]
    norm_num
  · norm_num

/-- Claim C1 (amended): for every evaluation pass over a split with at least
one batch, each of the seven loss keys of the returned metrics record equals
its sum over batches divided by the batch count, and `fid_val` equals the
accumulator's single finalized compute result divided by the batch count as
well (the averaging loop divides every key). -/
theorem evaluate_epoch_averages_every_key (bs : List LossRec) (fidComputed : ℚ)
    (h : bs ≠ []) :
    evaluate_epoch bs fidComputed = .ok
      { lossDX := (bs.map LossRec.lossDX).sum / bs.length
        lossDY := (bs.map LossRec.lossDY).sum / bs.length
        lossFAdv := (bs.map LossRec.lossFAdv).sum / bs.length
        lossGAdv := (bs.map LossRec.lossGAdv).sum / bs.length
        lossCyc := (bs.map LossRec.lossCyc).sum / bs.length
        lossId := (bs.map LossRec.lossId).sum / bs.length
        lossGenTotal := (bs.map LossRec.lossGenTotal).sum / bs.length
        fidVal := fidComputed / bs.length } :=
  evaluate_epoch_ok_eq bs fidComputed (by simpa using h)

/-- Witness for `evaluate_epoch_averages_every_key` at a concrete one-batch
split. -/
theorem evaluate_epoch_averages_every_key_witness :
    ([(⟨1, 2, 3, 4, 5, 6, 21⟩ : LossRec)] ≠ []) ∧
    evaluate_epoch [(⟨1, 2, 3, 4, 5, 6, 21⟩ : LossRec)] 7 = .ok
      ⟨1, 2, 3, 4, 5, 6, 21, 7⟩ := by
  refine ⟨by simp, ?_⟩
  have h := evaluate_epoch_averages_every_key [(⟨1, 2, 3, 4, 5, 6, 21⟩ : LossRec)] 7
    (by simp)
  rw [h]
  norm_num

/-- Claim C3: one optimization step runs the generator phase first and the
discriminator phase second on the generator phase's result; the generator
total loss is evaluated at the discriminator parameters exactly as they were
at entry to the step (before that step's discriminator updates); and each of
the four models' parameter sets receives exactly one optimizer step. -/
theorem perform_train_step_phase_order (o : Oracle) (x y : Int) (s : TrainState) :
    (perform_train_step o x y s =
      (let p := gen_phase o x y s
       let q := disc_phase o x y p.2.fakeX p.2.fakeY p.1
       (q.1, p.2, q.2.1, q.2.2))) ∧
    (perform_train_step o x y s).2.1.usedPDX = s.pDX ∧
    (perform_train_step o x y s).2.1.usedPDY = s.pDY ∧
    (perform_train_step o x y s).2.1.lossGenTotal =
      o.genLossTotal s.pG s.pF s.pDX s.pDY x y ∧
    (perform_train_step o x y s).1.stepsG = s.stepsG + 1 ∧
    (perform_train_step o x y s).1.stepsF = s.stepsF + 1 ∧
    (perform_train_step o x y s).1.stepsDX = s.stepsDX + 1 ∧
    (perform_train_step o x y s).1.stepsDY = s.stepsDY + 1 :=
  ⟨rfl, rfl, rfl, rfl, rfl, rfl, rfl, rfl⟩

/-- Claim C4: the discriminator phase — computed on the detached fakes —
leaves every generator parameter unchanged: parameters (and gradient buffers
and optimizer-step counts) of G and F recorded before the phase equal those
recorded after it, both for the phase in isolation and for the phase as it
occurs inside `perform_train_step`. -/
theorem disc_phase_frame_generators (o : Oracle) (x y fakeX fakeY : Int)
    (s : TrainState) :
    (disc_phase o x y fakeX fakeY s).1.pG = s.pG ∧
    (disc_phase o x y fakeX fakeY s).1.pF = s.pF ∧
    (disc_phase o x y fakeX fakeY s).1.gG = s.gG ∧
    (disc_phase o x y fakeX fakeY s).1.gF = s.gF ∧
    (disc_phase o x y fakeX fakeY s).1.stepsG = s.stepsG ∧
    (disc_phase o x y fakeX fakeY s).1.stepsF = s.stepsF ∧
    (perform_train_step o x y s).1.pG = (gen_phase o x y s).1.pG ∧
    (perform_train_step o x y s).1.pF = (gen_phase o x y s).1.pF :=
  ⟨rfl, rfl, rfl, rfl, rfl, rfl, rfl, rfl⟩

/-- Claim C5: for a run of `N ≥ 1` epochs, the learning-rate multiplier is
exactly `1.0` for every epoch index below `N // 2`, is non-increasing on
`[N // 2, N]`, equals exactly `0.0` at epoch `N`, and all four modules'
schedulers are the very same `_lr_lambda` function. -/
theorem lr_schedule_shape (N : Nat) (hN : 1 ≤ N) :
    (∀ e, e < N / 2 → lr_lambda N e = 1) ∧
    (∀ e1 e2, N / 2 ≤ e1 → e1 ≤ e2 → e2 ≤ N → lr_lambda N e2 ≤ lr_lambda N e1) ∧
    lr_lambda N N = 0 ∧
    (make_schedulers N).1 = lr_lambda N ∧
    (make_schedulers N).2.1 = lr_lambda N ∧
    (make_schedulers N).2.2.1 = lr_lambda N ∧
    (make_schedulers N).2.2.2 = lr_lambda N := by
  have hhalf : N / 2 < N := Nat.div_lt_self (by omega) (by omega)
  have hden : (0 : ℚ) < (N : ℚ) - ((N / 2 : Nat) : ℚ) := by
    have hc : ((N / 2 : Nat) : ℚ) < (N : ℚ) := by exact_mod_cast hhalf
    linarith
  refine ⟨?_, ?_, ?_, rfl, rfl, rfl, rfl⟩
  · intro e he
    simp [lr_lambda, he]
  · intro e1 e2 h1 h12 h2N
    have hne1 : ¬ e1 < N / 2 := by omega
    have hne2 : ¬ e2 < N / 2 := by omega
    simp only [lr_lambda, if_neg hne1, if_neg hne2]
    refine max_le_max le_rfl ?_
    rw [div_le_div_iff_of_pos_right hden]
    have hc : (e1 : ℚ) ≤ (e2 : ℚ) := by exact_mod_cast h12
    linarith
  · have hnn : ¬ N < N / 2 := by omega
    simp [lr_lambda, hnn]

/-- Witness for `lr_schedule_shape` at `N = 10`. -/
theorem lr_schedule_shape_witness :
    lr_lambda 10 4 = 1 ∧ lr_lambda 10 10 = 0 :=
  ⟨(lr_schedule_shape 10 (by norm_num)).1 4 (by norm_num),
   (lr_schedule_shape 10 (by norm_num)).2.2.1⟩

/-- Membership in the per-batch update block of the FID call trace. -/
lemma mem_batchFidUpdates {n : Nat} {e : FidEvent} :
    e ∈ batchFidUpdates n ↔
      n ≠ 0 ∧ (e = FidEvent.updateReal ∨ e = FidEvent.updateFake) := by
  simp [batchFidUpdates, List.mem_flatten, List.mem_replicate]
  aesop

/-- Claim C9: in every evaluation pass the accumulator's `reset` is called
exactly once and is the very first FID call (before any batch update), its
`compute` is called exactly once and is the very last FID call (after every
batch update), and neither occurs anywhere among the per-batch updates — in
particular `compute` is never called between batch updates. -/
theorem fid_reset_compute_protocol (n : Nat) :
    (evalFidTrace n).count FidEvent.reset = 1 ∧
    (evalFidTrace n).count FidEvent.compute = 1 ∧
    (evalFidTrace n).head? = some FidEvent.reset ∧
    (evalFidTrace n).getLast? = some FidEvent.compute ∧
    FidEvent.reset ∉ batchFidUpdates n ∧
    FidEvent.compute ∉ batchFidUpdates n := by
  have hreset : FidEvent.reset ∉ batchFidUpdates n := by
    rw [mem_batchFidUpdates]; simp
  have hcompute : FidEvent.compute ∉ batchFidUpdates n := by
    rw [mem_batchFidUpdates]; simp
  refine ⟨?_, ?_, rfl, ?_, hreset, hcompute⟩
  · rw [evalFidTrace]
    rw [List.count_cons_self, List.count_append,
      List.count_eq_zero.mpr hreset]
    simp
  · rw [evalFidTrace]
    rw [List.count_cons_of_ne (by simp), List.count_append,
      List.count_eq_zero.mpr hcompute]
    simp
  · rw [evalFidTrace, ← List.cons_append, List.getLast?_concat]

/-- Reduction of `Except` binds on an error value. -/
lemma error_bind {ε α β : Type} (e : ε) (f : α → Except ε β) :
    ((Except.error e : Except ε α) >>= f) = Except.error e := rfl

/-- Any data-availability failure makes `prepare_dataset` raise. -/
lemma prepare_dataset_error (ages : List Int)
    (h : ages = [] ∨ young_idx ages 28 = [] ∨ old_idx ages 28 40 = []) :
    ∃ e, prepare_dataset ages = .error e := by
  have hb : ∃ e, make_unpaired_loader_buckets ages 28 40 = .error e := by
    by_cases hemp : ages.isEmpty
    · exact ⟨.fileNotFound, by simp [make_unpaired_loader_buckets, utkface_init,
        hemp, error_bind]⟩
    · have hya : young_idx ages 28 = [] ∨ old_idx ages 28 40 = [] := by
        rcases h with h | h | h
        · exact absurd (by simp [h]) hemp
        · exact .inl h
        · exact .inr h
      refine ⟨.valueErrorEmptySplit, ?_⟩
      rcases hya with h | h <;>
        simp [make_unpaired_loader_buckets, utkface_init, hemp, ok_bind, h]
  obtain ⟨e, he⟩ := hb
  exact ⟨e, by simp [prepare_dataset, he, error_bind]⟩

/-- Claim C8: when the dataset directory holds no image files, or the age
thresholding leaves the young or the old bucket empty, `main` raises an error
during data preparation: the startup trace contains no model-construction
event, and the data-preparation attempt happens exactly once (no retry). -/
theorem data_failures_abort_before_models (ages : List Int)
    (h : ages = [] ∨ young_idx ages 28 = [] ∨ old_idx ages 28 40 = []) :
    (∃ e, (main_startup ages).2 = some e) ∧
    RunEvent.modelConstruction ∉ (main_startup ages).1 ∧
    (main_startup ages).1.count RunEvent.dataPreparation = 1 := by
  obtain ⟨e, he⟩ := prepare_dataset_error ages h
  refine ⟨⟨e, ?_⟩, ?_, ?_⟩ <;> simp [main_startup, he]

/-- Witness for `data_failures_abort_before_models`: an empty dataset
directory. -/
theorem data_failures_abort_before_models_witness :
    (([] : List Int) = [] ∨ young_idx ([] : List Int) 28 = [] ∨
      old_idx ([] : List Int) 28 40 = []) ∧
    RunEvent.modelConstruction ∉ (main_startup ([] : List Int)).1 :=
  ⟨Or.inl rfl, (data_failures_abort_before_models [] (Or.inl rfl)).2.1⟩

/-- Membership in the young-bucket index list. -/
lemma mem_young_idx {ages : List Int} {i : Nat} {young_max : Int} :
    i ∈ young_idx ages young_max ↔
      ∃ a, ages[i]? = some a ∧ a ≤ young_max ∧ 18 ≤ a := by
  simp only [young_idx, List.mem_map, List.mem_filter, Prod.exists,
    List.mk_mem_enum_iff_getElem?, decide_eq_true_eq]
  constructor
  · rintro ⟨j, a, ⟨hget, hcond⟩, rfl⟩
    exact ⟨a, hget, hcond⟩
  · rintro ⟨a, hget, hcond⟩
    exact ⟨i, a, ⟨hget, hcond⟩, rfl⟩

/-- Membership in the old-bucket index list. -/
lemma mem_old_idx {ages : List Int} {i : Nat} {young_max old_min : Int} :
    i ∈ old_idx ages young_max old_min ↔
      ∃ a, ages[i]? = some a ∧ ¬(a ≤ young_max ∧ 18 ≤ a) ∧ old_min ≤ a := by
  simp only [old_idx, List.mem_map, List.mem_filter, Prod.exists,
    List.mk_mem_enum_iff_getElem?, decide_eq_true_eq]
  constructor
  · rintro ⟨j, a, ⟨hget, hcond⟩, rfl⟩
    exact ⟨a, hget, hcond⟩
  · rintro ⟨a, hget, hcond⟩
    exact ⟨i, a, ⟨hget, hcond⟩, rfl⟩

/-- Claim C10: with the default thresholds (`young_max = 28`, `old_min = 40`)
an image of age `a` lands in the young bucket iff `18 ≤ a ≤ 28` and in the
old bucket iff `a ≥ 40`; an image in neither bucket appears in none of the
three splits carved (by shuffling and slicing) out of either bucket. -/
theorem age_thresholds_define_domains (ages : List Int) (i : Nat)
    (h : i < ages.length) :
    (i ∈ young_idx ages 28 ↔ (18 ≤ ages[i] ∧ ages[i] ≤ 28)) ∧
    (i ∈ old_idx ages 28 40 ↔ 40 ≤ ages[i]) ∧
    ((ages[i] < 18 ∨ (28 < ages[i] ∧ ages[i] < 40)) →
      ∀ shuffled : List Nat,
        shuffled.Perm (young_idx ages 28) ∨ shuffled.Perm (old_idx ages 28 40) →
        ∀ trainCut validCut limit : Nat,
          i ∉ (split_indices_parts shuffled trainCut validCut).1.take limit ∧
          i ∉ (split_indices_parts shuffled trainCut validCut).2.1.take limit ∧
          i ∉ (split_indices_parts shuffled trainCut validCut).2.2.take limit) := by
  have hyoung : i ∈ young_idx ages 28 ↔ (18 ≤ ages[i] ∧ ages[i] ≤ 28) := by
    rw [mem_young_idx]
    constructor
    · rintro ⟨a, ha, h1, h2⟩
      rw [List.getElem?_eq_getElem h, Option.some.injEq] at ha
      subst ha
      exact ⟨h2, h1⟩
    · rintro ⟨h1, h2⟩
      exact ⟨ages[i], List.getElem?_eq_getElem h, h2, h1⟩
  have hold : i ∈ old_idx ages 28 40 ↔ 40 ≤ ages[i] := by
    rw [mem_old_idx]
    constructor
    · rintro ⟨a, ha, -, h2⟩
      rw [List.getElem?_eq_getElem h, Option.some.injEq] at ha
      subst ha
      exact h2
    · intro h1
      exact ⟨ages[i], List.getElem?_eq_getElem h, by omega, h1⟩
  refine ⟨hyoung, hold, ?_⟩
  intro hx shuffled hperm trainCut validCut limit
  have hni : i ∉ shuffled := by
    intro hmem
    rcases hperm with hp | hp
    · have hm := hp.mem_iff.mp hmem
      rw [hyoung] at hm
      omega
    · have hm := hp.mem_iff.mp hmem
      rw [hold] at hm
      omega
  simp only [split_indices_parts]
  refine ⟨fun hc => hni ?_, fun hc => hni ?_, fun hc => hni ?_⟩
  · exact List.take_subset _ _ (List.take_subset _ _ hc)
  · exact List.drop_subset _ _ (List.take_subset _ _ (List.take_subset _ _ hc))
  · exact List.drop_subset _ _ (List.take_subset _ _ hc)

/-- Witness for `age_thresholds_define_domains` on a one-image dataset of
age 20. -/
theorem age_thresholds_define_domains_witness :
    0 < ([(20 : Int)] : List Int).length ∧
    (0 ∈ young_idx [(20 : Int)] 28 ↔
      (18 ≤ ([(20 : Int)] : List Int)[0] ∧ ([(20 : Int)] : List Int)[0] ≤ 28)) :=
  ⟨by simp, (age_thresholds_define_domains [(20 : Int)] 0 (by simp)).1⟩

/-- `epochBody` on the `bestSaves` field. -/
lemma epochBody_bestSaves (epoch : Nat) (fid : ℚ) (s : RunState) :
    (epochBody epoch fid s).bestSaves =
      if ltBest fid s.bestFid then s.bestSaves ++ [epoch] else s.bestSaves := by
  unfold epochBody
  by_cases hb : ltBest fid s.bestFid <;> by_cases h5 : epoch % 5 = 0 <;>
    simp [hb, h5]

/-- `epochBody` on the `bestFid` field. -/
lemma epochBody_bestFid (epoch : Nat) (fid : ℚ) (s : RunState) :
    (epochBody epoch fid s).bestFid =
      if ltBest fid s.bestFid then some fid else s.bestFid := by
  unfold epochBody
  by_cases hb : ltBest fid s.bestFid <;> by_cases h5 : epoch % 5 = 0 <;>
    simp [hb, h5]

/-- `epochBody` on the `currentSaves` field. -/
lemma epochBody_currentSaves (epoch : Nat) (fid : ℚ) (s : RunState) :
    (epochBody epoch fid s).currentSaves =
      if epoch % 5 = 0 then s.currentSaves ++ [epoch] else s.currentSaves := by
  unfold epochBody
  by_cases hb : ltBest fid s.bestFid <;> by_cases h5 : epoch % 5 = 0 <;>
    simp [hb, h5]

/-- `ltBest` holds exactly when the candidate beats every recorded best. -/
lemma ltBest_eq_true_iff {v : ℚ} {b : Option ℚ} :
    ltBest v b = true ↔ ∀ q, b = some q → v < q := by
  cases b <;> simp [ltBest]

/-- Characterization of the epochs at which the loop starting from an
arbitrary state writes a `best` checkpoint: exactly those whose validation
FID strictly beats both the incoming best and every earlier FID of the
remaining epochs. -/
lemma mem_runAux_bestSaves (fids : List ℚ) :
    ∀ (s : RunState) (epoch e : Nat),
      (e ∈ (runAux s epoch fids).bestSaves ↔
        e ∈ s.bestSaves ∨
        ∃ k v, fids[k]? = some v ∧ e = epoch + k ∧
          (∀ b, s.bestFid = some b → v < b) ∧
          (∀ j w, j < k → fids[j]? = some w → v < w)) := by
  induction fids with
  | nil =>
    intro s epoch e
    simp [runAux]
  | cons f rest ih =>
    intro s epoch e
    rw [show runAux s epoch (f :: rest) =
      runAux (epochBody epoch f s) (epoch + 1) rest from rfl]
    rw [ih, epochBody_bestSaves, epochBody_bestFid]
    by_cases hb : ltBest f s.bestFid
    · rw [if_pos hb, if_pos hb]
      have hlt : ∀ b, s.bestFid = some b → f < b := ltBest_eq_true_iff.mp hb
      simp only [List.mem_append, List.mem_singleton, Option.some.injEq]
      constructor
      · rintro ((hs | he) | ⟨k, v, hget, heq, hvf, hpri⟩)
        · exact .inl hs
        · subst he
          exact .inr ⟨0, f, by simp, by omega, hlt, fun j w hj _ => absurd hj (by omega)⟩
        · have hvf' : v < f := hvf f rfl
          refine .inr ⟨k + 1, v, by simpa using hget, by omega, ?_, ?_⟩
          · exact fun b hbb => lt_trans hvf' (hlt b hbb)
          · intro j w hj hw
            cases j with
            | zero =>
              rw [List.getElem?_cons_zero, Option.some.injEq] at hw
              subst hw
              exact hvf'
            | succ j' =>
              exact hpri j' w (by omega) (by simpa using hw)
      · rintro (hs | ⟨k, v, hget, heq, hbb, hpri⟩)
        · exact .inl (.inl hs)
        · cases k with
          | zero =>
            rw [List.getElem?_cons_zero, Option.some.injEq] at hget
            subst hget
            exact .inl (.inr (by omega))
          | succ k' =>
            have hvf : v < f := hpri 0 f (by omega) (by simp)
            refine .inr ⟨k', v, by simpa using hget, by omega, fun b hbb' => hbb' ▸ hvf, ?_⟩
            intro j w hj hw
            exact hpri (j + 1) w (by omega) (by simpa using hw)
    · rw [if_neg hb, if_neg hb]
      obtain ⟨b0, hb0, hfb0⟩ : ∃ b0, s.bestFid = some b0 ∧ ¬ f < b0 := by
        cases hbf : s.bestFid with
        | none => exact absurd (ltBest_eq_true_iff.mpr (by simp [hbf])) hb
        | some b0 =>
          refine ⟨b0, rfl, fun hlt => hb ?_⟩
          rw [ltBest_eq_true_iff]
          intro q hq
          rw [hbf, Option.some.injEq] at hq
          subst hq
          exact hlt
      constructor
      · rintro (hs | ⟨k, v, hget, heq, hbb, hpri⟩)
        · exact .inl hs
        · refine .inr ⟨k + 1, v, by simpa using hget, by omega, hbb, ?_⟩
          intro j w hj hw
          cases j with
          | zero =>
            rw [List.getElem?_cons_zero, Option.some.injEq] at hw
            subst hw
            exact lt_of_lt_of_le (hbb b0 hb0) (not_lt.mp hfb0)
          | succ j' =>
            exact hpri j' w (by omega) (by simpa using hw)
      · rintro (hs | ⟨k, v, hget, heq, hbb, hpri⟩)
        · exact .inl hs
        · cases k with
          | zero =>
            rw [List.getElem?_cons_zero, Option.some.injEq] at hget
            subst hget
            exact absurd (hbb b0 hb0) hfb0
          | succ k' =>
            refine .inr ⟨k', v, by simpa using hget, by omega, hbb, ?_⟩
            intro j w hj hw
            exact hpri (j + 1) w (by omega) (by simpa using hw)

/-- Characterization of the epochs at which the loop starting from an
arbitrary state writes a `current` checkpoint: exactly the multiples of 5
among the epoch indices it runs, independent of the FID values. -/
lemma mem_runAux_currentSaves (fids : List ℚ) :
    ∀ (s : RunState) (epoch e : Nat),
      (e ∈ (runAux s epoch fids).currentSaves ↔
        e ∈ s.currentSaves ∨
          (epoch ≤ e ∧ e < epoch + fids.length ∧ e % 5 = 0)) := by
  induction fids with
  | nil =>
    intro s epoch e
    simp [runAux]
    omega
  | cons f rest ih =>
    intro s epoch e
    rw [show runAux s epoch (f :: rest) =
      runAux (epochBody epoch f s) (epoch + 1) rest from rfl]
    rw [ih, epochBody_currentSaves]
    by_cases h5 : epoch % 5 = 0
    · rw [if_pos h5]
      simp only [List.mem_append, List.mem_singleton, List.length_cons]
      constructor
      · rintro ((hs | he) | hrange)
        · exact .inl hs
        · exact .inr (by omega)
        · exact .inr (by omega)
      · rintro (hs | hrange)
        · exact .inl (.inl hs)
        · by_cases he : e = epoch
          · exact .inl (.inr he)
          · exact .inr (by omega)
    · rw [if_neg h5]
      simp only [List.length_cons]
      constructor
      · rintro (hs | hrange)
        · exact .inl hs
        · exact .inr (by omega)
      · rintro (hs | hrange)
        · exact .inl hs
        · refine .inr ⟨?_, by omega, hrange.2.2⟩
          rcases Nat.eq_or_lt_of_le hrange.1 with he | he
          · exact absurd (he ▸ hrange.2.2) h5
          · omega

/-- Claim C6: across the epoch loop a `best` checkpoint is written in epoch
`e` iff that epoch's validation FID is strictly smaller than every earlier
epoch's FID (the first epoch always qualifies, beating the initial
infinity); on the FID sequence [5, 3, 4, 2] the best checkpoint is written
at epochs 1, 2 and 4 — not 3 — and the epoch index stored in it at run end
is 4. -/
theorem best_checkpoint_policy (fids : List ℚ) (e : Nat) :
    (e ∈ (runLoop fids).bestSaves ↔
      (1 ≤ e ∧ ∃ v, fids[e - 1]? = some v ∧
        ∀ j w, j < e - 1 → fids[j]? = some w → v < w)) ∧
    (runLoop [(5 : ℚ), 3, 4, 2]).bestSaves = [1, 2, 4] ∧
    (runLoop [(5 : ℚ), 3, 4, 2]).bestCkptEpoch = some 4 := by
  refine ⟨?_, by decide, by decide⟩
  rw [runLoop, mem_runAux_bestSaves]
  simp only [initRun, List.not_mem_nil, false_or, reduceCtorEq, false_implies,
    implies_true, true_and]
  constructor
  · rintro ⟨k, v, hget, heq, hpri⟩
    refine ⟨by omega, v, ?_, ?_⟩
    · rw [show e - 1 = k from by omega]
      exact hget
    · intro j w hj hw
      exact hpri j w (by omega) hw
  · rintro ⟨h1, v, hget, hpri⟩
    exact ⟨e - 1, v, hget, by omega, fun j w hj hw => hpri j w hj hw⟩

/-- Witness for `best_checkpoint_policy` on the concrete FID sequence of the
claim. -/
theorem best_checkpoint_policy_witness :
    (runLoop [(5 : ℚ), 3, 4, 2]).bestSaves = [1, 2, 4] :=
  (best_checkpoint_policy [(5 : ℚ), 3, 4, 2] 1).2.1

/-- Claim C7: across the epoch loop a `current` checkpoint is written in
epoch `e` iff `e` is a multiple of 5, irrespective of the FID values (the
characterization holds for an arbitrary FID sequence and mentions no FID);
in particular a 2-epoch run writes zero `current` checkpoints. -/
theorem current_checkpoint_policy (fids : List ℚ) (e : Nat) :
    (e ∈ (runLoop fids).currentSaves ↔
      (1 ≤ e ∧ e ≤ fids.length ∧ e % 5 = 0)) ∧
    (∀ f1 f2 : ℚ, (runLoop [f1, f2]).currentSaves = []) := by
  constructor
  · rw [runLoop, mem_runAux_currentSaves]
    simp only [initRun, List.not_mem_nil, false_or]
    omega
  · intro f1 f2
    rw [List.eq_nil_iff_forall_not_mem]
    intro x hmem
    rw [runLoop, mem_runAux_currentSaves] at hmem
    simp only [initRun, List.not_mem_nil, false_or, List.length_cons,
      List.length_nil] at hmem
    omega

/-- Witness for `current_checkpoint_policy`: a concrete 2-epoch run. -/
theorem current_checkpoint_policy_witness :
    (runLoop [(1 : ℚ), 1]).currentSaves = [] :=
  (current_checkpoint_policy [] 0).2 1 1

end AgingGan
